import Mathlib

/-!
Verification of the parachute sizing engine of the `gu-rocketry` repository.

The engine lives in `parachute_gui.py` (functions `compute_single`,
`compute_dual`, `round_feet`, and the display logic of
`ParachuteGUI._add_row`) with an older prompt-driven variant in
`parachute_area.py`.  Python floats are modelled by real numbers, Python
exceptions by `Except String`, and Python's banker's rounding `round` by
`pyround` below.
-/

namespace Parachute

/-- Circle constant, source `PI = math.pi` in `parachute_gui.py`. -/
noncomputable def PI : ℝ := Real.pi

/-- Unit conversion, source `M2_TO_FT2 = 10.7639`. -/
def M2_TO_FT2 : ℝ := 10.7639

/-- Unit conversion, source `M_TO_IN = 39.3701`. -/
def M_TO_IN : ℝ := 39.3701

/-- Unit conversion, source `M_TO_FT = 3.28084`. -/
def M_TO_FT : ℝ := 3.28084

/-- Result record of `compute_single` (dataclass `SingleResult`). -/
structure SingleResult where
  S_total_m2 : ℝ
  D_total_m : ℝ

/-- Derived property `SingleResult.S_total_ft2`. -/
def SingleResult.S_total_ft2 (r : SingleResult) : ℝ := r.S_total_m2 * M2_TO_FT2

/-- Derived property `SingleResult.D_total_in`. -/
def SingleResult.D_total_in (r : SingleResult) : ℝ := r.D_total_m * M_TO_IN

/-- Derived property `SingleResult.D_total_ft`. -/
def SingleResult.D_total_ft (r : SingleResult) : ℝ := r.D_total_m * M_TO_FT

/-- Result record of `compute_dual` (dataclass `DualResult`). -/
structure DualResult where
  S_total_m2 : ℝ
  D_total_m : ℝ
  S_drogue_m2 : ℝ
  D_drogue_m : ℝ
  S_main_m2 : ℝ
  D_main_m : ℝ

/-- Embedding of `compute_single(g, m, rho_air, Cd, V)`:
raises `ValueError("All inputs must be positive.")` when any input is
non-positive, otherwise returns `S = (2 g m)/(rho Cd V^2)` and
`D = sqrt(4 S / PI)`. -/
noncomputable def compute_single (g m rho_air Cd V : ℝ) :
    Except String SingleResult :=
  if g ≤ 0 ∨ m ≤ 0 ∨ rho_air ≤ 0 ∨ Cd ≤ 0 ∨ V ≤ 0 then
    Except.error "All inputs must be positive."
  else
    Except.ok
      { S_total_m2 := (2 * g * m) / (rho_air * Cd * V * V)
        D_total_m := Real.sqrt (4 * ((2 * g * m) / (rho_air * Cd * V * V)) / PI) }

/-- Embedding of `compute_dual(g, m, rho_air, Cd_drogue, Cd_main, V,
drogue_fraction)`: validates positivity of the six positional inputs, then
that the drogue fraction lies in `[0.01, 0.9]`; sizes the total with the
average drag coefficient and splits the area by the drogue fraction, each
sub-diameter recomputed from its own sub-area. -/
noncomputable def compute_dual (g m rho_air Cd_drogue Cd_main V drogue_fraction : ℝ) :
    Except String DualResult :=
  if g ≤ 0 ∨ m ≤ 0 ∨ rho_air ≤ 0 ∨ Cd_drogue ≤ 0 ∨ Cd_main ≤ 0 ∨ V ≤ 0 then
    Except.error "All inputs must be positive."
  else if ¬ (0.01 ≤ drogue_fraction ∧ drogue_fraction ≤ 0.9) then
    Except.error "Drogue fraction should be in [0.01, 0.90]."
  else
    Except.ok
      { S_total_m2 :=
          (2 * g * m) / (rho_air * (0.5 * (Cd_drogue + Cd_main)) * V * V)
        D_total_m :=
          Real.sqrt (4 * ((2 * g * m) / (rho_air * (0.5 * (Cd_drogue + Cd_main)) * V * V)) / PI)
        S_drogue_m2 :=
          (2 * g * m) / (rho_air * (0.5 * (Cd_drogue + Cd_main)) * V * V) * drogue_fraction
        D_drogue_m :=
          Real.sqrt (4 * ((2 * g * m) / (rho_air * (0.5 * (Cd_drogue + Cd_main)) * V * V) * drogue_fraction) / PI)
        S_main_m2 :=
          (2 * g * m) / (rho_air * (0.5 * (Cd_drogue + Cd_main)) * V * V) * (1 - drogue_fraction)
        D_main_m :=
          Real.sqrt (4 * ((2 * g * m) / (rho_air * (0.5 * (Cd_drogue + Cd_main)) * V * V) * (1 - drogue_fraction)) / PI) }

/-- Python's built-in `round` (one argument): round half to even, otherwise
to the nearest integer. -/
noncomputable def pyround (x : ℝ) : ℤ :=
  if Int.fract x = 1 / 2 then (if Even ⌊x⌋ then ⌊x⌋ else ⌊x⌋ + 1) else round x

/-- String constant, source `FootRounding.NONE = "None"`. -/
def FootRounding.NONE : String := "None"

/-- String constant, source `FootRounding.NEAREST = "Nearest whole ft"`. -/
def FootRounding.NEAREST : String := "Nearest whole ft"

/-- String constant, source `FootRounding.UP = "Ceil (next ft)"`. -/
def FootRounding.UP : String := "Ceil (next ft)"

/-- String constant, source `FootRounding.DOWN = "Floor (whole ft)"`. -/
def FootRounding.DOWN : String := "Floor (whole ft)"

/-- Embedding of `round_feet(value_ft, mode)`: nearest / ceil / floor to a
whole number of feet for the three named modes, and the unchanged value for
any other mode string (source falls through to `return value_ft`). -/
noncomputable def round_feet (value_ft : ℝ) (mode : String) : ℝ :=
  if mode = FootRounding.NEAREST then (pyround value_ft : ℝ)
  else if mode = FootRounding.UP then (⌈value_ft⌉ : ℝ)
  else if mode = FootRounding.DOWN then (⌊value_ft⌋ : ℝ)
  else value_ft

/-- Shape of the `rounded_display` cell built by `ParachuteGUI._add_row`:
either `f"{v:.0f} ft"` carrying the (possibly rounded) foot value, or
`f"< 1 ft (≈ {v:.0f} in)"` carrying the whole-inch value. -/
inductive PurchaseDisplay where
  | feetDisplay (v : ℝ) : PurchaseDisplay
  | inchDisplay (v : ℤ) : PurchaseDisplay

/-- Embedding of the purchase-size logic of `ParachuteGUI._add_row`: the
safety-factored diameter `diam_ft_sf = diam_ft * sqrt(safety)` is rounded in
feet when it is at least `1.0`, otherwise the safety-factored diameter in
inches is rounded to a whole inch (source lines 348-358 of
`parachute_gui.py`, with `diam_in = diam_m * M_TO_IN` and
`diam_ft = diam_m * M_TO_FT`). -/
noncomputable def add_row_display (diam_m : ℝ) (rounding_mode : String)
    (safety : ℝ) : PurchaseDisplay :=
  if diam_m * M_TO_FT * Real.sqrt safety ≥ 1 then
    PurchaseDisplay.feetDisplay
      (round_feet (diam_m * M_TO_FT * Real.sqrt safety) rounding_mode)
  else
    PurchaseDisplay.inchDisplay (pyround (diam_m * M_TO_IN * Real.sqrt safety))

/-- Safety-factored diameter of the GUI path, source
`diam_ft_sf = diam_ft * math.sqrt(safety)` in `ParachuteGUI._add_row`. -/
noncomputable def gui_sf_diameter_ft (diam_ft safety : ℝ) : ℝ :=
  diam_ft * Real.sqrt safety

/-- Safety-factored diameter printed by the prompt-driven script
`parachute_area.py`: the expression `safety_factor * D_total_ft` inside
`round(safety_factor * D_total_ft, 3)` of its results line. -/
def cli_sf_diameter_ft (safety_factor D_total_ft : ℝ) : ℝ :=
  safety_factor * D_total_ft

end Parachute

open Parachute

/-- Helper: reduction of `compute_single` on valid inputs. -/
theorem compute_single_ok_eq (g m rho Cd V : ℝ)
    (h : ¬ (g ≤ 0 ∨ m ≤ 0 ∨ rho ≤ 0 ∨ Cd ≤ 0 ∨ V ≤ 0)) :
    compute_single g m rho Cd V = Except.ok
      { S_total_m2 := (2 * g * m) / (rho * Cd * V * V)
        D_total_m := Real.sqrt (4 * ((2 * g * m) / (rho * Cd * V * V)) / PI) } := by
  unfold compute_single
  rw [if_neg h]

/-- Helper: reduction of `compute_dual` on valid inputs. -/
theorem compute_dual_ok_eq (g m rho Cd_d Cd_m V f : ℝ)
    (h1 : ¬ (g ≤ 0 ∨ m ≤ 0 ∨ rho ≤ 0 ∨ Cd_d ≤ 0 ∨ Cd_m ≤ 0 ∨ V ≤ 0))
    (h2 : 0.01 ≤ f ∧ f ≤ 0.9) :
    compute_dual g m rho Cd_d Cd_m V f = Except.ok
      { S_total_m2 :=
          (2 * g * m) / (rho * (0.5 * (Cd_d + Cd_m)) * V * V)
        D_total_m :=
          Real.sqrt (4 * ((2 * g * m) / (rho * (0.5 * (Cd_d + Cd_m)) * V * V)) / PI)
        S_drogue_m2 :=
          (2 * g * m) / (rho * (0.5 * (Cd_d + Cd_m)) * V * V) * f
        D_drogue_m :=
          Real.sqrt (4 * ((2 * g * m) / (rho * (0.5 * (Cd_d + Cd_m)) * V * V) * f) / PI)
        S_main_m2 :=
          (2 * g * m) / (rho * (0.5 * (Cd_d + Cd_m)) * V * V) * (1 - f)
        D_main_m :=
          Real.sqrt (4 * ((2 * g * m) / (rho * (0.5 * (Cd_d + Cd_m)) * V * V) * (1 - f)) / PI) } := by
  unfold compute_dual
  rw [if_neg h1, if_neg (not_not_intro h2)]

/-- C1: for strictly positive `g, m, rho, Cd, V`, `compute_single` succeeds
with `area = (2 g m)/(rho Cd V^2) > 0` and
`diameter = sqrt(4 * area / PI)` exactly. -/
theorem compute_single_formula (g m rho Cd V : ℝ)
    (hg : 0 < g) (hm : 0 < m) (hrho : 0 < rho) (hCd : 0 < Cd) (hV : 0 < V) :
    ∃ r : SingleResult, compute_single g m rho Cd V = Except.ok r ∧
      r.S_total_m2 = (2 * g * m) / (rho * Cd * V * V) ∧
      0 < r.S_total_m2 ∧
      r.D_total_m = Real.sqrt (4 * r.S_total_m2 / PI) := by
  have hcond : ¬ (g ≤ 0 ∨ m ≤ 0 ∨ rho ≤ 0 ∨ Cd ≤ 0 ∨ V ≤ 0) := by
    push_neg
    exact ⟨hg, hm, hrho, hCd, hV⟩
  refine ⟨{ S_total_m2 := (2 * g * m) / (rho * Cd * V * V)
            D_total_m := Real.sqrt (4 * ((2 * g * m) / (rho * Cd * V * V)) / PI) },
    ?_, rfl, by positivity, rfl⟩
  unfold compute_single
  rw [if_neg hcond]

/-- Witness for C1 at the spec's concrete test case
`g = 9.81, m = 10, rho = 1.225, Cd = 1.2, V = 10`. -/
theorem compute_single_formula_witness :
    ∃ r : SingleResult, compute_single 9.81 10 1.225 1.2 10 = Except.ok r ∧
      r.S_total_m2 = (2 * 9.81 * 10) / (1.225 * 1.2 * 10 * 10) ∧
      0 < r.S_total_m2 ∧
      r.D_total_m = Real.sqrt (4 * r.S_total_m2 / PI) :=
  compute_single_formula 9.81 10 1.225 1.2 10 (by norm_num) (by norm_num)
    (by norm_num) (by norm_num) (by norm_num)

/-- C2: on valid dual inputs each sub-diameter is derived from its own
sub-area by the circle-area inversion `D = sqrt(4 S / PI)`, and is not the
total diameter scaled by the corresponding area fraction. -/
theorem compute_dual_subdiameter_derivation (g m rho Cd_d Cd_m V f : ℝ)
    (hg : 0 < g) (hm : 0 < m) (hrho : 0 < rho) (hcd : 0 < Cd_d)
    (hcm : 0 < Cd_m) (hV : 0 < V) (hf1 : 0.01 ≤ f) (hf2 : f ≤ 0.9) :
    ∃ r : DualResult, compute_dual g m rho Cd_d Cd_m V f = Except.ok r ∧
      r.D_drogue_m = Real.sqrt (4 * r.S_drogue_m2 / PI) ∧
      r.D_main_m = Real.sqrt (4 * r.S_main_m2 / PI) ∧
      r.D_drogue_m ≠ f * r.D_total_m ∧
      r.D_main_m ≠ (1 - f) * r.D_total_m := by
  have hnot : ¬ (g ≤ 0 ∨ m ≤ 0 ∨ rho ≤ 0 ∨ Cd_d ≤ 0 ∨ Cd_m ≤ 0 ∨ V ≤ 0) := by
    push_neg
    exact ⟨hg, hm, hrho, hcd, hcm, hV⟩
  refine ⟨_, compute_dual_ok_eq g m rho Cd_d Cd_m V f hnot ⟨hf1, hf2⟩, rfl, rfl, ?_, ?_⟩
  all_goals dsimp only
  · have hS : 0 < (2 * g * m) / (rho * (0.5 * (Cd_d + Cd_m)) * V * V) := by positivity
    have hPI : 0 < PI := Real.pi_pos
    have hA : 0 < 4 * ((2 * g * m) / (rho * (0.5 * (Cd_d + Cd_m)) * V * V)) / PI := by
      positivity
    have hf0 : 0 < f := lt_of_lt_of_le (by norm_num) hf1
    have key : Real.sqrt (4 * ((2 * g * m) / (rho * (0.5 * (Cd_d + Cd_m)) * V * V) * f) / PI)
        = Real.sqrt f * Real.sqrt (4 * ((2 * g * m) / (rho * (0.5 * (Cd_d + Cd_m)) * V * V)) / PI) := by
      rw [show 4 * ((2 * g * m) / (rho * (0.5 * (Cd_d + Cd_m)) * V * V) * f) / PI
            = f * (4 * ((2 * g * m) / (rho * (0.5 * (Cd_d + Cd_m)) * V * V)) / PI) by ring,
          Real.sqrt_mul hf0.le]
    rw [key]
    have hfs : f < Real.sqrt f := (Real.lt_sqrt hf0.le).mpr (by nlinarith)
    have hroot : 0 < Real.sqrt (4 * ((2 * g * m) / (rho * (0.5 * (Cd_d + Cd_m)) * V * V)) / PI) :=
      Real.sqrt_pos.mpr hA
    exact ne_of_gt (mul_lt_mul_of_pos_right hfs hroot)
  · have hS : 0 < (2 * g * m) / (rho * (0.5 * (Cd_d + Cd_m)) * V * V) := by positivity
    have hPI : 0 < PI := Real.pi_pos
    have hA : 0 < 4 * ((2 * g * m) / (rho * (0.5 * (Cd_d + Cd_m)) * V * V)) / PI := by
      positivity
    have hf0 : 0 < 1 - f := by linarith
    have hf1' : 1 - f < 1 := by linarith [lt_of_lt_of_le (show (0:ℝ) < 0.01 by norm_num) hf1]
    have key : Real.sqrt (4 * ((2 * g * m) / (rho * (0.5 * (Cd_d + Cd_m)) * V * V) * (1 - f)) / PI)
        = Real.sqrt (1 - f) * Real.sqrt (4 * ((2 * g * m) / (rho * (0.5 * (Cd_d + Cd_m)) * V * V)) / PI) := by
      rw [show 4 * ((2 * g * m) / (rho * (0.5 * (Cd_d + Cd_m)) * V * V) * (1 - f)) / PI
            = (1 - f) * (4 * ((2 * g * m) / (rho * (0.5 * (Cd_d + Cd_m)) * V * V)) / PI) by ring,
          Real.sqrt_mul hf0.le]
    rw [key]
    have hfs : 1 - f < Real.sqrt (1 - f) := (Real.lt_sqrt hf0.le).mpr (by nlinarith)
    have hroot : 0 < Real.sqrt (4 * ((2 * g * m) / (rho * (0.5 * (Cd_d + Cd_m)) * V * V)) / PI) :=
      Real.sqrt_pos.mpr hA
    exact ne_of_gt (mul_lt_mul_of_pos_right hfs hroot)

/-- Witness for C2 at `g = 9.81, m = 10, rho = 1.225, Cd_drogue = 1.2,
Cd_main = 1.0, V = 10, drogue_fraction = 0.2`. -/
theorem compute_dual_subdiameter_derivation_witness :
    ∃ r : DualResult, compute_dual 9.81 10 1.225 1.2 1.0 10 0.2 = Except.ok r ∧
      r.D_drogue_m = Real.sqrt (4 * r.S_drogue_m2 / PI) ∧
      r.D_main_m = Real.sqrt (4 * r.S_main_m2 / PI) ∧
      r.D_drogue_m ≠ 0.2 * r.D_total_m ∧
      r.D_main_m ≠ (1 - 0.2) * r.D_total_m :=
  compute_dual_subdiameter_derivation 9.81 10 1.225 1.2 1.0 10 0.2
    (by norm_num) (by norm_num) (by norm_num) (by norm_num) (by norm_num)
    (by norm_num) (by norm_num) (by norm_num)

/-- C5: `compute_single` and `compute_dual` fail if and only if some
required numeric input is non-positive or (for the dual mode) the drogue
fraction lies outside `[0.01, 0.9]`; on valid inputs they return a complete
result and there is no other failure mode. -/
theorem compute_validation_characterization (g m rho Cd Cd_d Cd_m V f : ℝ) :
    ((compute_single g m rho Cd V = Except.error "All inputs must be positive.") ↔
      (g ≤ 0 ∨ m ≤ 0 ∨ rho ≤ 0 ∨ Cd ≤ 0 ∨ V ≤ 0)) ∧
    ((∃ r, compute_single g m rho Cd V = Except.ok r) ↔
      (0 < g ∧ 0 < m ∧ 0 < rho ∧ 0 < Cd ∧ 0 < V)) ∧
    ((∃ e, compute_dual g m rho Cd_d Cd_m V f = Except.error e) ↔
      ¬ (0 < g ∧ 0 < m ∧ 0 < rho ∧ 0 < Cd_d ∧ 0 < Cd_m ∧ 0 < V ∧
          0.01 ≤ f ∧ f ≤ 0.9)) ∧
    ((∃ r, compute_dual g m rho Cd_d Cd_m V f = Except.ok r) ↔
      (0 < g ∧ 0 < m ∧ 0 < rho ∧ 0 < Cd_d ∧ 0 < Cd_m ∧ 0 < V ∧
        0.01 ≤ f ∧ f ≤ 0.9)) := by
  refine ⟨?_, ?_, ?_, ?_⟩
  · by_cases hs : g ≤ 0 ∨ m ≤ 0 ∨ rho ≤ 0 ∨ Cd ≤ 0 ∨ V ≤ 0
    · have e : compute_single g m rho Cd V = Except.error "All inputs must be positive." := by
        unfold compute_single
        rw [if_pos hs]
      rw [e]
      simp [hs]
    · rw [compute_single_ok_eq g m rho Cd V hs]
      simp [hs]
  · by_cases hs : g ≤ 0 ∨ m ≤ 0 ∨ rho ≤ 0 ∨ Cd ≤ 0 ∨ V ≤ 0
    · have e : compute_single g m rho Cd V = Except.error "All inputs must be positive." := by
        unfold compute_single
        rw [if_pos hs]
      rw [e]
      constructor
      · rintro ⟨r, hr⟩
        exact absurd hr (by simp)
      · rintro ⟨h1, h2, h3, h4, h5⟩
        rcases hs with h | h | h | h | h <;> linarith
    · rw [compute_single_ok_eq g m rho Cd V hs]
      push_neg at hs
      exact ⟨fun _ => hs, fun _ => ⟨_, rfl⟩⟩
  · by_cases hd1 : g ≤ 0 ∨ m ≤ 0 ∨ rho ≤ 0 ∨ Cd_d ≤ 0 ∨ Cd_m ≤ 0 ∨ V ≤ 0
    · have e : compute_dual g m rho Cd_d Cd_m V f = Except.error "All inputs must be positive." := by
        unfold compute_dual
        rw [if_pos hd1]
      rw [e]
      constructor
      · rintro ⟨x, hx⟩ ⟨h1, h2, h3, h4, h5, h6, h7, h8⟩
        rcases hd1 with h | h | h | h | h | h <;> linarith
      · intro _
        exact ⟨_, rfl⟩
    · by_cases hd2 : 0.01 ≤ f ∧ f ≤ 0.9
      · rw [compute_dual_ok_eq g m rho Cd_d Cd_m V f hd1 hd2]
        push_neg at hd1
        constructor
        · rintro ⟨x, hx⟩
          exact absurd hx (by simp)
        · intro hc
          exact absurd ⟨hd1.1, hd1.2.1, hd1.2.2.1, hd1.2.2.2.1, hd1.2.2.2.2.1,
            hd1.2.2.2.2.2, hd2.1, hd2.2⟩ hc
      · have e : compute_dual g m rho Cd_d Cd_m V f
            = Except.error "Drogue fraction should be in [0.01, 0.90]." := by
          unfold compute_dual
          rw [if_neg hd1, if_pos hd2]
        rw [e]
        constructor
        · rintro ⟨x, hx⟩ ⟨h1, h2, h3, h4, h5, h6, h7, h8⟩
          exact hd2 ⟨h7, h8⟩
        · intro _
          exact ⟨_, rfl⟩
  · by_cases hd1 : g ≤ 0 ∨ m ≤ 0 ∨ rho ≤ 0 ∨ Cd_d ≤ 0 ∨ Cd_m ≤ 0 ∨ V ≤ 0
    · have e : compute_dual g m rho Cd_d Cd_m V f = Except.error "All inputs must be positive." := by
        unfold compute_dual
        rw [if_pos hd1]
      rw [e]
      constructor
      · rintro ⟨r, hr⟩
        exact absurd hr (by simp)
      · rintro ⟨h1, h2, h3, h4, h5, h6, h7, h8⟩
        rcases hd1 with h | h | h | h | h | h <;> linarith
    · by_cases hd2 : 0.01 ≤ f ∧ f ≤ 0.9
      · rw [compute_dual_ok_eq g m rho Cd_d Cd_m V f hd1 hd2]
        push_neg at hd1
        exact ⟨fun _ => ⟨hd1.1, hd1.2.1, hd1.2.2.1, hd1.2.2.2.1, hd1.2.2.2.2.1,
          hd1.2.2.2.2.2, hd2.1, hd2.2⟩, fun _ => ⟨_, rfl⟩⟩
      · have e : compute_dual g m rho Cd_d Cd_m V f
            = Except.error "Drogue fraction should be in [0.01, 0.90]." := by
          unfold compute_dual
          rw [if_neg hd1, if_pos hd2]
        rw [e]
        constructor
        · rintro ⟨r, hr⟩
          exact absurd hr (by simp)
        · rintro ⟨h1, h2, h3, h4, h5, h6, h7, h8⟩
          exact absurd ⟨h7, h8⟩ hd2

/-- C6: on valid dual inputs the areas split proportionally:
`S_drogue = S_total * f`, `S_main = S_total * (1 - f)` and
`S_drogue + S_main = S_total` exactly. -/
theorem compute_dual_area_split (g m rho Cd_d Cd_m V f : ℝ)
    (hg : 0 < g) (hm : 0 < m) (hrho : 0 < rho) (hcd : 0 < Cd_d)
    (hcm : 0 < Cd_m) (hV : 0 < V) (hf1 : 0.01 ≤ f) (hf2 : f ≤ 0.9) :
    ∃ r : DualResult, compute_dual g m rho Cd_d Cd_m V f = Except.ok r ∧
      r.S_drogue_m2 = r.S_total_m2 * f ∧
      r.S_main_m2 = r.S_total_m2 * (1 - f) ∧
      r.S_drogue_m2 + r.S_main_m2 = r.S_total_m2 := by
  have hnot : ¬ (g ≤ 0 ∨ m ≤ 0 ∨ rho ≤ 0 ∨ Cd_d ≤ 0 ∨ Cd_m ≤ 0 ∨ V ≤ 0) := by
    push_neg
    exact ⟨hg, hm, hrho, hcd, hcm, hV⟩
  exact ⟨_, compute_dual_ok_eq g m rho Cd_d Cd_m V f hnot ⟨hf1, hf2⟩,
    rfl, rfl, by dsimp only; ring⟩

/-- Witness for C6 at `g = 9.81, m = 10, rho = 1.225, Cd_drogue = 1.2,
Cd_main = 1.2, V = 10, drogue_fraction = 0.2`. -/
theorem compute_dual_area_split_witness :
    ∃ r : DualResult, compute_dual 9.81 10 1.225 1.2 1.2 10 0.2 = Except.ok r ∧
      r.S_drogue_m2 = r.S_total_m2 * 0.2 ∧
      r.S_main_m2 = r.S_total_m2 * (1 - 0.2) ∧
      r.S_drogue_m2 + r.S_main_m2 = r.S_total_m2 :=
  compute_dual_area_split 9.81 10 1.225 1.2 1.2 10 0.2
    (by norm_num) (by norm_num) (by norm_num) (by norm_num) (by norm_num)
    (by norm_num) (by norm_num) (by norm_num)

/-- C9: with equal drag coefficients the dual total agrees with the single
result (the average is the common value), and with drogue fraction `0.2`
the drogue and main areas are `0.2` and `0.8` of the total. -/
theorem compute_dual_matches_single (g m rho Cd V : ℝ)
    (hg : 0 < g) (hm : 0 < m) (hrho : 0 < rho) (hCd : 0 < Cd) (hV : 0 < V) :
    ∃ rs : SingleResult, ∃ rd : DualResult,
      compute_single g m rho Cd V = Except.ok rs ∧
      compute_dual g m rho Cd Cd V 0.2 = Except.ok rd ∧
      rd.S_total_m2 = rs.S_total_m2 ∧
      rd.D_total_m = rs.D_total_m ∧
      rd.S_drogue_m2 = 0.2 * rd.S_total_m2 ∧
      rd.S_main_m2 = 0.8 * rd.S_total_m2 := by
  have hs : ¬ (g ≤ 0 ∨ m ≤ 0 ∨ rho ≤ 0 ∨ Cd ≤ 0 ∨ V ≤ 0) := by
    push_neg
    exact ⟨hg, hm, hrho, hCd, hV⟩
  have hd : ¬ (g ≤ 0 ∨ m ≤ 0 ∨ rho ≤ 0 ∨ Cd ≤ 0 ∨ Cd ≤ 0 ∨ V ≤ 0) := by
    push_neg
    exact ⟨hg, hm, hrho, hCd, hCd, hV⟩
  have hden : rho * (0.5 * (Cd + Cd)) * V * V = rho * Cd * V * V := by ring
  refine ⟨_, _, compute_single_ok_eq g m rho Cd V hs,
    compute_dual_ok_eq g m rho Cd Cd V 0.2 hd (by norm_num), ?_, ?_, ?_, ?_⟩
  all_goals dsimp only
  · rw [hden]
  · rw [hden]
  · ring
  · ring_nf

/-- Witness for C9 at the spec's concrete test case
`g = 9.81, m = 10, rho = 1.225, Cd = 1.2, V = 10`. -/
theorem compute_dual_matches_single_witness :
    ∃ rs : SingleResult, ∃ rd : DualResult,
      compute_single 9.81 10 1.225 1.2 10 = Except.ok rs ∧
      compute_dual 9.81 10 1.225 1.2 1.2 10 0.2 = Except.ok rd ∧
      rd.S_total_m2 = rs.S_total_m2 ∧
      rd.D_total_m = rs.D_total_m ∧
      rd.S_drogue_m2 = 0.2 * rd.S_total_m2 ∧
      rd.S_main_m2 = 0.8 * rd.S_total_m2 :=
  compute_dual_matches_single 9.81 10 1.225 1.2 10
    (by norm_num) (by norm_num) (by norm_num) (by norm_num) (by norm_num)

/-- C7: on valid inputs every area and diameter in the result of
`compute_single` and `compute_dual` is strictly positive, and every
diameter equals `sqrt(4 * area / PI)` of its own area. -/
theorem compute_results_invariant (g m rho Cd Cd_d Cd_m V f : ℝ)
    (hg : 0 < g) (hm : 0 < m) (hrho : 0 < rho) (hCd : 0 < Cd)
    (hcd : 0 < Cd_d) (hcm : 0 < Cd_m) (hV : 0 < V)
    (hf1 : 0.01 ≤ f) (hf2 : f ≤ 0.9) :
    (∃ r : SingleResult, compute_single g m rho Cd V = Except.ok r ∧
      0 < r.S_total_m2 ∧ 0 < r.D_total_m ∧
      r.D_total_m = Real.sqrt (4 * r.S_total_m2 / PI)) ∧
    (∃ r : DualResult, compute_dual g m rho Cd_d Cd_m V f = Except.ok r ∧
      0 < r.S_total_m2 ∧ 0 < r.S_drogue_m2 ∧ 0 < r.S_main_m2 ∧
      0 < r.D_total_m ∧ 0 < r.D_drogue_m ∧ 0 < r.D_main_m ∧
      r.D_total_m = Real.sqrt (4 * r.S_total_m2 / PI) ∧
      r.D_drogue_m = Real.sqrt (4 * r.S_drogue_m2 / PI) ∧
      r.D_main_m = Real.sqrt (4 * r.S_main_m2 / PI)) := by
  have hPI : 0 < PI := Real.pi_pos
  have hf0 : 0 < f := lt_of_lt_of_le (by norm_num) hf1
  have hf0' : 0 < 1 - f := by linarith
  constructor
  · have hs : ¬ (g ≤ 0 ∨ m ≤ 0 ∨ rho ≤ 0 ∨ Cd ≤ 0 ∨ V ≤ 0) := by
      push_neg
      exact ⟨hg, hm, hrho, hCd, hV⟩
    refine ⟨_, compute_single_ok_eq g m rho Cd V hs, ?_, ?_, rfl⟩
    all_goals dsimp only
    · positivity
    · exact Real.sqrt_pos.mpr (by positivity)
  · have hd : ¬ (g ≤ 0 ∨ m ≤ 0 ∨ rho ≤ 0 ∨ Cd_d ≤ 0 ∨ Cd_m ≤ 0 ∨ V ≤ 0) := by
      push_neg
      exact ⟨hg, hm, hrho, hcd, hcm, hV⟩
    refine ⟨_, compute_dual_ok_eq g m rho Cd_d Cd_m V f hd ⟨hf1, hf2⟩,
      ?_, ?_, ?_, ?_, ?_, ?_, rfl, rfl, rfl⟩
    all_goals dsimp only
    · positivity
    · positivity
    · positivity
    · exact Real.sqrt_pos.mpr (by positivity)
    · exact Real.sqrt_pos.mpr (by positivity)
    · exact Real.sqrt_pos.mpr (by positivity)

/-- Witness for C7 at `g = 9.81, m = 10, rho = 1.225, Cd = 1.2,
Cd_drogue = 1.2, Cd_main = 1.0, V = 10, drogue_fraction = 0.2`. -/
theorem compute_results_invariant_witness :
    (∃ r : SingleResult, compute_single 9.81 10 1.225 1.2 10 = Except.ok r ∧
      0 < r.S_total_m2 ∧ 0 < r.D_total_m ∧
      r.D_total_m = Real.sqrt (4 * r.S_total_m2 / PI)) ∧
    (∃ r : DualResult, compute_dual 9.81 10 1.225 1.2 1.0 10 0.2 = Except.ok r ∧
      0 < r.S_total_m2 ∧ 0 < r.S_drogue_m2 ∧ 0 < r.S_main_m2 ∧
      0 < r.D_total_m ∧ 0 < r.D_drogue_m ∧ 0 < r.D_main_m ∧
      r.D_total_m = Real.sqrt (4 * r.S_total_m2 / PI) ∧
      r.D_drogue_m = Real.sqrt (4 * r.S_drogue_m2 / PI) ∧
      r.D_main_m = Real.sqrt (4 * r.S_main_m2 / PI)) :=
  compute_results_invariant 9.81 10 1.225 1.2 1.2 1.0 10 0.2
    (by norm_num) (by norm_num) (by norm_num) (by norm_num) (by norm_num)
    (by norm_num) (by norm_num) (by norm_num) (by norm_num)

/-- Helper: `pyround` is the identity on integers. -/
theorem pyround_intCast (n : ℤ) : pyround (n : ℝ) = n := by
  unfold pyround
  rw [Int.fract_intCast]
  norm_num

/-- Helper: `round_feet` with mode `"None"` is the identity. -/
theorem round_feet_none (x : ℝ) : round_feet x FootRounding.NONE = x := by
  unfold round_feet
  rw [if_neg (by decide), if_neg (by decide), if_neg (by decide)]

/-- Helper: `round_feet` with mode `"Nearest whole ft"` is `pyround`. -/
theorem round_feet_nearest (x : ℝ) :
    round_feet x FootRounding.NEAREST = (pyround x : ℝ) := by
  unfold round_feet
  rw [if_pos rfl]

/-- Helper: `round_feet` with mode `"Ceil (next ft)"` is the ceiling. -/
theorem round_feet_up (x : ℝ) :
    round_feet x FootRounding.UP = (⌈x⌉ : ℝ) := by
  unfold round_feet
  rw [if_neg (by decide), if_pos rfl]

/-- Helper: `round_feet` with mode `"Floor (whole ft)"` is the floor. -/
theorem round_feet_down (x : ℝ) :
    round_feet x FootRounding.DOWN = (⌊x⌋ : ℝ) := by
  unfold round_feet
  rw [if_neg (by decide), if_neg (by decide), if_pos rfl]

/-- C8: `round_feet` is idempotent on whole-foot values: for an
integer-valued diameter each of the four policies returns the value itself,
so applying the rounding again returns the same value. -/
theorem round_feet_idempotent (n : ℤ) :
    (round_feet (n : ℝ) FootRounding.NONE = (n : ℝ) ∧
      round_feet (round_feet (n : ℝ) FootRounding.NONE) FootRounding.NONE
        = round_feet (n : ℝ) FootRounding.NONE) ∧
    (round_feet (n : ℝ) FootRounding.NEAREST = (n : ℝ) ∧
      round_feet (round_feet (n : ℝ) FootRounding.NEAREST) FootRounding.NEAREST
        = round_feet (n : ℝ) FootRounding.NEAREST) ∧
    (round_feet (n : ℝ) FootRounding.UP = (n : ℝ) ∧
      round_feet (round_feet (n : ℝ) FootRounding.UP) FootRounding.UP
        = round_feet (n : ℝ) FootRounding.UP) ∧
    (round_feet (n : ℝ) FootRounding.DOWN = (n : ℝ) ∧
      round_feet (round_feet (n : ℝ) FootRounding.DOWN) FootRounding.DOWN
        = round_feet (n : ℝ) FootRounding.DOWN) := by
  have h1 : round_feet (n : ℝ) FootRounding.NONE = (n : ℝ) := round_feet_none _
  have h2 : round_feet (n : ℝ) FootRounding.NEAREST = (n : ℝ) := by
    rw [round_feet_nearest, pyround_intCast]
  have h3 : round_feet (n : ℝ) FootRounding.UP = (n : ℝ) := by
    rw [round_feet_up, Int.ceil_intCast]
  have h4 : round_feet (n : ℝ) FootRounding.DOWN = (n : ℝ) := by
    rw [round_feet_down, Int.floor_intCast]
  refine ⟨⟨h1, ?_⟩, ⟨h2, ?_⟩, ⟨h3, ?_⟩, ⟨h4, ?_⟩⟩
  · rw [h1, h1]
  · rw [h2, h2]
  · rw [h3, h3]
  · rw [h4, h4]

/-- C10: `round_feet` passes its input through unchanged for every mode
string that is not one of the three named rounding modes. -/
theorem round_feet_unrecognized (x : ℝ) (mode : String)
    (h1 : mode ≠ FootRounding.NEAREST) (h2 : mode ≠ FootRounding.UP)
    (h3 : mode ≠ FootRounding.DOWN) :
    round_feet x mode = x := by
  unfold round_feet
  rw [if_neg h1, if_neg h2, if_neg h3]

/-- Witness for C10 at the unrecognized mode string `"custom"` and a
non-integral value, showing the silent pass-through. -/
theorem round_feet_unrecognized_witness :
    ("custom" ≠ FootRounding.NEAREST ∧ "custom" ≠ FootRounding.UP ∧
      "custom" ≠ FootRounding.DOWN) ∧
    round_feet 2.5 "custom" = 2.5 :=
  ⟨⟨by decide, by decide, by decide⟩,
    round_feet_unrecognized 2.5 "custom" (by decide) (by decide) (by decide)⟩

/-- C4: in the purchase-size cell, a safety-factored diameter strictly
below `1.0` ft skips foot rounding under every policy and is reported in
whole inches, while a value at or above `1.0` ft gets the chosen
foot-rounding policy. -/
theorem add_row_threshold (diam_m safety : ℝ) (mode : String) :
    (diam_m * M_TO_FT * Real.sqrt safety < 1 →
      add_row_display diam_m mode safety =
        PurchaseDisplay.inchDisplay (pyround (diam_m * M_TO_IN * Real.sqrt safety))) ∧
    (1 ≤ diam_m * M_TO_FT * Real.sqrt safety →
      add_row_display diam_m mode safety =
        PurchaseDisplay.feetDisplay
          (round_feet (diam_m * M_TO_FT * Real.sqrt safety) mode)) := by
  constructor
  · intro h
    unfold add_row_display
    rw [if_neg (not_le.mpr h)]
  · intro h
    unfold add_row_display
    rw [if_pos h]

/-- Witness for C4 at a safety-factored diameter of exactly `0.999` ft
(safety factor `1`): the cell is the inch display, not a foot display. -/
theorem add_row_threshold_witness :
    (0.999 / M_TO_FT) * M_TO_FT * Real.sqrt 1 < 1 ∧
    add_row_display (0.999 / M_TO_FT) FootRounding.NONE 1 =
      PurchaseDisplay.inchDisplay
        (pyround ((0.999 / M_TO_FT) * M_TO_IN * Real.sqrt 1)) := by
  have h : (0.999 / M_TO_FT) * M_TO_FT * Real.sqrt 1 < 1 := by
    rw [Real.sqrt_one]
    unfold M_TO_FT
    norm_num
  exact ⟨h, (add_row_threshold (0.999 / M_TO_FT) 1 FootRounding.NONE).1 h⟩

/-- C3 divergence: the GUI call site scales the diameter by
`sqrt(safety)`, so a safety factor of `1.21` yields a `1.1x` diameter, but
the prompt-driven script's call site multiplies the diameter linearly by
the safety factor, yielding `1.21x` on the same input — the two call sites
do not agree, and the second violates the sqrt propagation rule. -/
theorem safety_factor_call_sites :
    gui_sf_diameter_ft 1 1.21 = 1.1 ∧
    cli_sf_diameter_ft 1.21 1 = 1.21 ∧
    (1.21 : ℝ) ≠ 1.1 := by
  refine ⟨?_, ?_, by norm_num⟩
  · unfold gui_sf_diameter_ft
    rw [show (1.21 : ℝ) = 1.1 ^ 2 by norm_num, Real.sqrt_sq (by norm_num)]
    norm_num
  · unfold cli_sf_diameter_ft
    norm_num
